import Mathlib

/-!
Verification of the NoteKeeper offline-capable note client.

The development is a shallow embedding of the synchronization policy in
`assets/js/app.js`, the remote client wrapper (class `NoteKeeper`) and the
service-worker asset-cache handlers. Connectivity and the outcomes of remote
requests are explicit parameters (the JS samples `navigator.onLine` and awaits
`fetch` results); local storage is the single slot holding the value stored
under the key "savedNotes"; DOM rendering is recorded as the list of notes
passed to `addNoteToUI`.
-/

/-- A note, as in the data model: an integer id and a string content. -/
structure Note where
  id : Int
  note : String
deriving DecidableEq, Repr

/-- The value found in local storage under the key "savedNotes".
`absent` means `localStorage.getItem` returned `null` (then
`JSON.parse(null)` gives `null`, and `null || []` gives `[]`).
`falsy` means the item held valid JSON whose parse is a falsy value
(null, false, 0 or the empty string), so that `parsed || []` gives `[]`.
`malformed raw` means the item holds a string that is not valid JSON, on
which `JSON.parse` throws a SyntaxError.
`notes ns` means the item holds the JSON serialization of the list `ns`. -/
inductive StoredVal where
  | absent
  | falsy
  | malformed (raw : String)
  | notes (ns : List Note)
deriving DecidableEq, Repr

/-- A request issued to the remote client `NoteKeeper` (each constructor is
one of the static methods that performs a `fetch` against BASE_URL). -/
inductive RemoteCall where
  | getAll
  | create (content : String)
  | update (n : Note)
  | delete (ids : List Int)
deriving DecidableEq, Repr

namespace app

/-- Embedding of `app.getFromLocalStorage("savedNotes")`, which is
`JSON.parse(localStorage.getItem(key)) || []`. There is no try/catch in the
function itself, so a malformed stored string makes `JSON.parse` throw: the
result is `.error`. An absent item or a falsy parse yields the empty list. -/
def getFromLocalStorage : StoredVal → Except String (List Note)
  | .absent => .ok []
  | .falsy => .ok []
  | .malformed _ => .error "SyntaxError"
  | .notes ns => .ok ns

/-- Embedding of `app.setInLocalStorage("savedNotes", value)`: serializes the
list and overwrites the slot. -/
def setInLocalStorage (ns : List Note) : StoredVal :=
  .notes ns

/-- Outcome of one `app.handleCreateNote` run: the resulting "savedNotes"
slot, the notes added to the UI, the remote requests issued, the returned
boolean, and whether the success log entry was written (false means the
catch branch logged an error). -/
structure CreateOutcome where
  store : StoredVal
  ui : List Note
  netCalls : List RemoteCall
  result : Bool
  logOk : Bool
deriving DecidableEq, Repr

/-- Embedding of `app.handleCreateNote(noteContent)`. `createRes` is the
outcome of `NoteKeeper.create`: `.error` if the fetch or JSON parse threw,
`.ok none` if the payload lacked a note (falsy `data.note`), `.ok (some n)`
on success. The JS reads the slot, throws when offline, otherwise awaits the
create, throws on a falsy result, then pushes the new note, writes the slot
back, adds the note to the UI and logs; the catch branch logs the error and
returns false. -/
def handleCreateNote (online : Bool) (createRes : Except Unit (Option Note))
    (noteContent : String) (st : StoredVal) : CreateOutcome :=
  match getFromLocalStorage st with
  | .error _ => ⟨st, [], [], false, false⟩
  | .ok savedNotes =>
    if online then
      match createRes with
      | .error _ => ⟨st, [], [.create noteContent], false, false⟩
      | .ok none => ⟨st, [], [.create noteContent], false, false⟩
      | .ok (some n) =>
        ⟨setInLocalStorage (savedNotes ++ [n]), [n], [.create noteContent],
          true, true⟩
    else
      ⟨st, [], [], false, false⟩

/-- Outcome of one `app.handleUpdateNote` run. -/
structure UpdateOutcome where
  store : StoredVal
  netCalls : List RemoteCall
  logOk : Bool
deriving DecidableEq, Repr

/-- Embedding of `app.handleUpdateNote(note)`. `updateRes` is the outcome of
`NoteKeeper.update(note)`: `.error` if the request threw, `.ok b` with `b`
the HTTP ok flag. The JS reads the slot, throws when offline, throws when
the update does not confirm success, otherwise maps over the saved notes
replacing each one whose id equals `note.id` by `note`, and writes the slot
back; the catch branch only logs. -/
def handleUpdateNote (online : Bool) (updateRes : Except Unit Bool)
    (note : Note) (st : StoredVal) : UpdateOutcome :=
  match getFromLocalStorage st with
  | .error _ => ⟨st, [], false⟩
  | .ok savedNotes =>
    if online then
      match updateRes with
      | .error _ => ⟨st, [.update note], false⟩
      | .ok false => ⟨st, [.update note], false⟩
      | .ok true =>
        ⟨setInLocalStorage (savedNotes.map fun savedNote =>
            if savedNote.id = note.id then note else savedNote),
          [.update note], true⟩
    else
      ⟨st, [], false⟩

/-- Outcome of one `app.handleDeleteNote` run. `remote` is the remote note
collection, carried through to make the frame effect on it explicit. -/
structure DeleteOutcome where
  store : StoredVal
  remote : List Note
  netCalls : List RemoteCall
  logOk : Bool
deriving DecidableEq, Repr

/-- Embedding of `app.handleDeleteNote(noteId, noteElement)`. The JS reads
the slot, throws when offline, then filters out every saved note whose id
equals `noteId` and writes the slot back. No method of `NoteKeeper` is
called anywhere in the function, so no request is issued and the remote
collection is untouched. -/
def handleDeleteNote (online : Bool) (noteId : Int) (st : StoredVal)
    (remote : List Note) : DeleteOutcome :=
  match getFromLocalStorage st with
  | .error _ => ⟨st, remote, [], false⟩
  | .ok savedNotes =>
    if online then
      ⟨setInLocalStorage (savedNotes.filter fun n => n.id != noteId),
        remote, [], true⟩
    else
      ⟨st, remote, [], false⟩

/-- Result of a `app.loadNotes` run that did not throw: the resulting
"savedNotes" slot, the notes rendered to the UI (in order), and which log
entry was written. -/
structure LoadResult where
  store : StoredVal
  ui : List Note
  logOk : Bool
  logErr : Bool
deriving DecidableEq, Repr

/-- Embedding of `app.loadNotes()`. `getAllRes` is the outcome of
`NoteKeeper.getAll()`. The JS reads the slot (outside any try/catch: a
malformed slot makes the whole call throw, hence `.error`), initializes
`notes = []`, and when online awaits `getAll` inside a try: on success it
overwrites the slot with the fetched list, on a throw it logs an error and
returns at once. Then `notes = notes.length ? notes : savedNotes` falls
back to the previously saved notes whenever `notes` is empty, each
resulting note is rendered once in order, and the success entry is logged. -/
def loadNotes (online : Bool) (getAllRes : Except Unit (List Note))
    (st : StoredVal) : Except String LoadResult :=
  match getFromLocalStorage st with
  | .error e => .error e
  | .ok savedNotes =>
    match (if online then getAllRes.map some else .ok none) with
    | .error _ => .ok ⟨st, [], false, true⟩
    | .ok fetchedOpt =>
      let st2 := match fetchedOpt with
        | some fetched => setInLocalStorage fetched
        | none => st
      let notes := fetchedOpt.getD []
      let notes := if notes.isEmpty then savedNotes else notes
      .ok ⟨st2, notes, true, false⟩

end app

/-! Service-worker asset cache (`service-worker.js`). The browser CacheStorage
is a map from region names to caches; a cache is a list of url/response
entries. The `install` and `activate` listeners are embedded as functions on
that state; the atomicity of `Cache.addAll` is the platform contract. -/

/-- A cache region: entries pairing a request url with a stored response
body. -/
abbrev CacheEntries := List (String × String)

/-- The CacheStorage state: named regions in creation order. -/
abbrev CacheStorage := List (String × CacheEntries)

/-- The fixed version string naming the current cache region
(`const CACHE_NAME = "note-cache-j2"`). -/
def CACHE_NAME : String := "note-cache-j2"

/-- The fixed manifest of asset urls cached at install time
(`const urlsToCache = [...]`). -/
def urlsToCache : List String :=
  ["/", "/index.html", "/assets/css/styles.css", "/assets/js/app.js",
   "/assets/js/api.js", "/assets/icons/icon-192x192.png",
   "/assets/icons/icon-512x512.png", "/assets/icons/favicon.png",
   "/manifest.json"]

/-- Look up a region by name (`caches` keyed access); `none` when no region
of that name exists. -/
def getRegion (name : String) (cs : CacheStorage) : Option CacheEntries :=
  (cs.find? fun r => r.1 == name).map (fun r => r.2)

/-- Embedding of `caches.open(name)`: returns the existing region, creating
an empty one first when absent. -/
def cachesOpen (name : String) (cs : CacheStorage) : CacheStorage :=
  if cs.any fun r => r.1 == name then cs else cs ++ [(name, [])]

/-- Overwrite the entries of the named region. -/
def setRegion (name : String) (entries : CacheEntries) (cs : CacheStorage) :
    CacheStorage :=
  cs.map fun r => if r.1 == name then (name, entries) else r

/-- Modelled from the spec: the fetch phase of the platform method
`Cache.addAll(urls)` (its body is not repository code). It fetches every
url of the list; if any single fetch rejects, the whole operation rejects
and no entry is produced (atomic all-or-nothing population). `fetchRes`
gives the outcome of fetching each url. -/
def fetchAll (fetchRes : String → Except Unit String) :
    List String → Except Unit CacheEntries
  | [] => .ok []
  | u :: us =>
    match fetchRes u with
    | .error e => .error e
    | .ok body =>
      match fetchAll fetchRes us with
      | .error e => .error e
      | .ok rest => .ok ((u, body) :: rest)

/-- Embedding of the `install` event listener: open the region named
`CACHE_NAME` (creating it when absent) and run `cache.addAll(urlsToCache)`.
The boolean is whether installation succeeded (the promise passed to
`event.waitUntil` resolved); on failure the opened region keeps the entries
it had when opened, since the rejected `addAll` stores nothing. -/
def installHandler (fetchRes : String → Except Unit String)
    (cs : CacheStorage) : Bool × CacheStorage :=
  let cs1 := cachesOpen CACHE_NAME cs
  let entries := (getRegion CACHE_NAME cs1).getD []
  match fetchAll fetchRes urlsToCache with
  | .error _ => (false, cs1)
  | .ok fetched => (true, setRegion CACHE_NAME (entries ++ fetched) cs1)

/-- Embedding of `caches.delete(name)`: removes the region of that name. -/
def cachesDelete (name : String) (cs : CacheStorage) : CacheStorage :=
  cs.filter fun r => r.1 != name

/-- Embedding of the `activate` event listener: enumerate the region names
(`caches.keys()`), and delete every region whose name differs from
`CACHE_NAME`. -/
def activateHandler (cs : CacheStorage) : CacheStorage :=
  (cs.map fun r => r.1).foldl
    (fun acc name => if name != CACHE_NAME then cachesDelete name acc else acc)
    cs

/-! Theorems about the claims. -/

/-- C1, counterexample. With a prior snapshot holding one note, an online
load whose fetch throws leaves the slot untouched but renders nothing: the
function logs an error and returns at once, so the prior snapshot is not
rendered, contrary to the claim. -/
theorem loadNotes_fetch_throw_cex :
    app.loadNotes true (.error ()) (.notes [⟨1, "a"⟩]) =
      .ok ⟨.notes [⟨1, "a"⟩], [], false, true⟩ ∧
    ([] : List Note) ≠ [⟨1, "a"⟩] :=
  ⟨rfl, by decide⟩

/-- C1, amended. If loadNotes runs while online and the remote fetch of all
notes throws, the Local Store snapshot under "savedNotes" is left untouched,
an error is logged, and the operation returns without rendering any note to
the UI (there is no fallback rendering of the prior snapshot). -/
theorem loadNotes_fetch_throw_keeps_store (ns : List Note) :
    app.loadNotes true (.error ()) (.notes ns) =
      .ok ⟨.notes ns, [], false, true⟩ ∧
    app.loadNotes true (.error ()) .absent = .ok ⟨.absent, [], false, true⟩ ∧
    app.loadNotes true (.error ()) .falsy = .ok ⟨.falsy, [], false, true⟩ :=
  ⟨rfl, rfl, rfl⟩

/-- C3. A create while offline leaves the whole outcome inert: the slot is
returned unchanged, no note reaches the UI, no remote request is issued,
and the function returns false after logging the error. -/
theorem handleCreateNote_offline (createRes : Except Unit (Option Note))
    (content : String) (st : StoredVal) :
    app.handleCreateNote false createRes content st =
      ⟨st, [], [], false, false⟩ := by
  cases st <;> rfl

/-- C5, counterexample. On a malformed stored string, `JSON.parse` throws
inside getFromLocalStorage (there is no try/catch there), so the function
raises rather than returning the empty sequence claimed. -/
theorem getFromLocalStorage_malformed_cex :
    app.getFromLocalStorage (.malformed "not json") = .error "SyntaxError" ∧
    (Except.error "SyntaxError" : Except String (List Note)) ≠ .ok [] :=
  ⟨rfl, fun h => Except.noConfusion h⟩

/-- C5, amended. getFromLocalStorage returns the empty sequence when the
item is absent or when the stored JSON parses to a falsy value; on a
malformed (non-JSON) stored string it raises a SyntaxError, which callers
catch at the operation boundary; a stored list is returned as is. -/
theorem getFromLocalStorage_spec (s : String) (ns : List Note) :
    app.getFromLocalStorage .absent = .ok [] ∧
    app.getFromLocalStorage .falsy = .ok [] ∧
    app.getFromLocalStorage (.malformed s) = .error "SyntaxError" ∧
    app.getFromLocalStorage (.notes ns) = .ok ns :=
  ⟨rfl, rfl, rfl, rfl⟩

/-- C6. Whenever the remote update does not confirm success — the app is
offline, the request throws, or the remote returns a failure flag — the
"savedNotes" slot is unchanged by handleUpdateNote. -/
theorem handleUpdateNote_no_success_no_mutation (n : Note) (st : StoredVal)
    (r : Except Unit Bool) :
    app.handleUpdateNote false r n st = ⟨st, [], false⟩ ∧
    (app.handleUpdateNote true (.error ()) n st).store = st ∧
    (app.handleUpdateNote true (.ok false) n st).store = st := by
  refine ⟨?_, ?_, ?_⟩ <;> cases st <;> rfl

/-- C7, counterexample. Online, remote returns the empty set, prior
snapshot holds one note: the slot is replaced by the empty list, but the
line `notes = notes.length ? notes : savedNotes` falls back to the prior
snapshot, which is rendered — one note is rendered although the claim says
none should be. -/
theorem loadNotes_empty_remote_cex :
    app.loadNotes true (.ok []) (.notes [⟨1, "a"⟩]) =
      .ok ⟨.notes [], [⟨1, "a"⟩], true, false⟩ ∧
    ([⟨1, "a"⟩] : List Note) ≠ [] :=
  ⟨rfl, by decide⟩

/-- C7, amended. On a non-throwing load the rendered list is: the fetched
remote set when online and that set is nonempty; otherwise the prior Local
Store snapshot (both when offline and when the fetched set is empty). Each
resulting note is rendered exactly once, in sequence order, and when online
the slot is fully replaced by the fetched set. -/
theorem loadNotes_render (fetched ns : List Note)
    (r : Except Unit (List Note)) :
    app.loadNotes true (.ok fetched) (.notes ns) =
      .ok ⟨.notes fetched, if fetched.isEmpty then ns else fetched,
        true, false⟩ ∧
    app.loadNotes false r (.notes ns) = .ok ⟨.notes ns, ns, true, false⟩ :=
  ⟨rfl, rfl⟩

/-- C8. handleDeleteNote never issues a request to the remote client — in
particular `NoteKeeper.delete` is never invoked — so the remote collection
is returned unchanged in every case, while online the id is removed from
the local snapshot. -/
theorem handleDeleteNote_no_remote (online : Bool) (noteId : Int)
    (st : StoredVal) (remote ns : List Note) :
    (app.handleDeleteNote online noteId st remote).netCalls = [] ∧
    (app.handleDeleteNote online noteId st remote).remote = remote ∧
    (app.handleDeleteNote true noteId (.notes ns) remote).store =
      .notes (ns.filter fun n => n.id != noteId) := by
  refine ⟨?_, ?_, rfl⟩ <;> cases st <;> cases online <;> rfl

/-- Helper: mapping the replace-by-id function over a list in which the
target id does not occur is the identity. -/
theorem map_replace_of_not_mem (n : Note) (ns : List Note)
    (h : n.id ∉ ns.map Note.id) :
    (ns.map fun s => if s.id = n.id then n else s) = ns := by
  induction ns with
  | nil => rfl
  | cons s tl ih =>
    simp only [List.map_cons, List.mem_cons, not_or] at h
    obtain ⟨h1, h2⟩ := h
    simp only [List.map_cons]
    rw [if_neg fun hh => h1 hh.symm, ih h2]

/-- Helper: on a list with pairwise distinct ids containing the target id,
the replace-by-id map is an update at the unique matching index. -/
theorem map_replace_eq_set (n : Note) (ns : List Note)
    (hnd : (ns.map Note.id).Nodup) (hmem : n.id ∈ ns.map Note.id) :
    ∃ i, ∃ hi : i < ns.length,
      (ns.get ⟨i, hi⟩).id = n.id ∧
      (ns.map fun s => if s.id = n.id then n else s) = ns.set i n := by
  induction ns with
  | nil => simp at hmem
  | cons s tl ih =>
    simp only [List.map_cons, List.nodup_cons] at hnd
    by_cases hs : s.id = n.id
    · refine ⟨0, Nat.succ_pos _, hs, ?_⟩
      simp only [List.map_cons, List.set]
      rw [if_pos hs]
      congr 1
      exact map_replace_of_not_mem n tl (hs ▸ hnd.1)
    · have hmem2 : n.id ∈ tl.map Note.id := by
        simp only [List.map_cons] at hmem
        rcases List.mem_cons.mp hmem with h | h
        · exact absurd h (fun hh => hs hh.symm)
        · exact h
      obtain ⟨i, hi, hg, hmap⟩ := ih hnd.2 hmem2
      refine ⟨i + 1, Nat.succ_lt_succ hi, hg, ?_⟩
      simp only [List.map_cons, List.set]
      rw [if_neg hs, hmap]

/-- C2. When handleUpdateNote runs online, the remote confirms success, and
the id of the incoming note occurs in a snapshot whose ids are pairwise
distinct, the resulting snapshot is the old one updated at exactly the one
index holding that id: the note there is replaced by the incoming note,
every other position is unchanged, and length and order are preserved. -/
theorem handleUpdateNote_success (n : Note) (ns : List Note)
    (hnd : (ns.map Note.id).Nodup) (hmem : n.id ∈ ns.map Note.id) :
    ∃ i, ∃ hi : i < ns.length,
      (ns.get ⟨i, hi⟩).id = n.id ∧
      (app.handleUpdateNote true (.ok true) n (.notes ns)).store =
        .notes (ns.set i n) ∧
      (ns.set i n).length = ns.length ∧
      ∀ j, j ≠ i → (ns.set i n)[j]? = ns[j]? := by
  obtain ⟨i, hi, hg, hmap⟩ := map_replace_eq_set n ns hnd hmem
  refine ⟨i, hi, hg, ?_, by simp, ?_⟩
  · show StoredVal.notes (ns.map fun s => if s.id = n.id then n else s) = _
    rw [hmap]
  · intro j hj
    exact List.getElem?_set_ne (fun h => hj h.symm)

/-- C2 witness: updating note id 2 in the two-note snapshot. -/
theorem handleUpdateNote_success_witness :
    ∃ i, ∃ hi : i < ([⟨1, "a"⟩, ⟨2, "b"⟩] : List Note).length,
      (([⟨1, "a"⟩, ⟨2, "b"⟩] : List Note).get ⟨i, hi⟩).id =
        (⟨2, "x"⟩ : Note).id ∧
      (app.handleUpdateNote true (.ok true) ⟨2, "x"⟩
          (.notes [⟨1, "a"⟩, ⟨2, "b"⟩])).store =
        .notes (([⟨1, "a"⟩, ⟨2, "b"⟩] : List Note).set i ⟨2, "x"⟩) ∧
      (([⟨1, "a"⟩, ⟨2, "b"⟩] : List Note).set i ⟨2, "x"⟩).length =
        ([⟨1, "a"⟩, ⟨2, "b"⟩] : List Note).length ∧
      ∀ j, j ≠ i →
        (([⟨1, "a"⟩, ⟨2, "b"⟩] : List Note).set i ⟨2, "x"⟩)[j]? =
          ([⟨1, "a"⟩, ⟨2, "b"⟩] : List Note)[j]? :=
  handleUpdateNote_success ⟨2, "x"⟩ [⟨1, "a"⟩, ⟨2, "b"⟩] (by decide) (by decide)

/-- Deleting a list of ids one at a time while online, each run of
`app.handleDeleteNote` reading the slot the previous run wrote (the id
argument of each UI delete button is bound at render time). -/
def deleteAllIds (ids : List Int) (st : StoredVal) (remote : List Note) :
    StoredVal :=
  ids.foldl (fun s i => (app.handleDeleteNote true i s remote).store) st

/-- Helper: the online deletes of a list of ids filter the snapshot down to
the notes whose id is none of them. -/
theorem deleteAllIds_filter (remote : List Note) :
    ∀ (ids : List Int) (ns : List Note),
      deleteAllIds ids (.notes ns) remote =
        .notes (ns.filter fun n => ids.all fun i => n.id != i) := by
  intro ids
  induction ids with
  | nil => intro ns; simp [deleteAllIds]
  | cons i ids ih =>
    intro ns
    have h1 : deleteAllIds (i :: ids) (.notes ns) remote =
        deleteAllIds ids (.notes (ns.filter fun n => n.id != i)) remote := rfl
    rw [h1, ih]
    congr 1
    rw [List.filter_filter]
    apply List.filter_congr
    intro a _
    simp [List.all_cons, Bool.and_comm]

/-- C4. While online, handleDeleteNote removes the named ids from the
snapshot unconditionally — its body consults no remote outcome at all (see
the C8 theorem: no request is even issued) — and in particular deleting
ids 1 and 3 from the collection with ids 1, 2, 3 leaves exactly the note
with id 2. -/
theorem handleDeleteNote_removes_named_ids :
    (∀ (ids : List Int) (ns remote : List Note),
      deleteAllIds ids (.notes ns) remote =
        .notes (ns.filter fun n => ids.all fun i => n.id != i)) ∧
    deleteAllIds [1, 3] (.notes [⟨1, "a"⟩, ⟨2, "b"⟩, ⟨3, "c"⟩]) [] =
      .notes [⟨2, "b"⟩] :=
  ⟨fun ids ns remote => deleteAllIds_filter remote ids ns, by decide⟩

/-- Helper: if fetching any url of the list fails, fetching the whole list
fails. -/
theorem fetchAll_error_of_mem (f : String → Except Unit String) :
    ∀ us : List String, (∃ u ∈ us, f u = .error ()) →
      fetchAll f us = .error () := by
  intro us
  induction us with
  | nil =>
    rintro ⟨u, h, _⟩
    exact absurd h (List.not_mem_nil u)
  | cons v us ih =>
    rintro ⟨u, hu, hf⟩
    rcases List.mem_cons.mp hu with h | h
    · subst h
      simp [fetchAll, hf]
    · cases hv : f v with
      | error e => cases e; simp [fetchAll, hv]
      | ok b => simp [fetchAll, hv, ih ⟨u, h, hf⟩]

/-- Helper: a name with no region has no match in the `any` scan of
`cachesOpen`. -/
theorem getRegion_none_any_false (name : String) :
    ∀ cs : CacheStorage, getRegion name cs = none →
      (cs.any fun r => r.1 == name) = false := by
  intro cs
  induction cs with
  | nil => intro _; rfl
  | cons r cs ih =>
    intro h
    unfold getRegion at h
    by_cases hr : (r.1 == name) = true
    · rw [List.find?_cons_of_pos (p := fun x => x.1 == name) cs hr] at h
      exact absurd h (by simp)
    · rw [List.find?_cons_of_neg (p := fun x => x.1 == name) cs hr] at h
      have hb : (r.1 == name) = false := by simpa using hr
      rw [List.any_cons, hb, Bool.false_or]
      exact ih h

/-- Helper: appending a fresh empty region for a name not yet present makes
lookup of that name return the empty region. -/
theorem getRegion_append_self (name : String) :
    ∀ cs : CacheStorage, getRegion name cs = none →
      getRegion name (cs ++ [(name, [])]) = some [] := by
  intro cs
  induction cs with
  | nil =>
    intro _
    unfold getRegion
    rw [List.nil_append,
      List.find?_cons_of_pos
        (p := fun x : String × CacheEntries => x.1 == name) [] (by simp)]
    rfl
  | cons r cs ih =>
    intro h
    unfold getRegion at h ⊢
    by_cases hr : (r.1 == name) = true
    · rw [List.find?_cons_of_pos (p := fun x => x.1 == name) cs hr] at h
      exact absurd h (by simp)
    · rw [List.find?_cons_of_neg (p := fun x => x.1 == name) cs hr] at h
      rw [List.cons_append,
        List.find?_cons_of_neg
          (p := fun x : String × CacheEntries => x.1 == name)
          (cs ++ [(name, [])]) hr]
      exact ih h

/-- C9. Modelled from the spec for the platform part: `Cache.addAll` is
atomic all-or-nothing (`fetchAll`). If the region named by the current
version string does not exist yet and fetching any single url of the
install manifest fails, the install step fails and the new cache region
holds no entry at all, not even for the urls that fetched successfully. -/
theorem install_atomic (fetchRes : String → Except Unit String)
    (cs : CacheStorage) (h1 : getRegion CACHE_NAME cs = none)
    (h2 : ∃ u ∈ urlsToCache, fetchRes u = .error ()) :
    (installHandler fetchRes cs).1 = false ∧
    getRegion CACHE_NAME (installHandler fetchRes cs).2 = some [] := by
  have hAll : fetchAll fetchRes urlsToCache = .error () :=
    fetchAll_error_of_mem fetchRes urlsToCache h2
  have hAny := getRegion_none_any_false CACHE_NAME cs h1
  have hOpen : cachesOpen CACHE_NAME cs = cs ++ [(CACHE_NAME, [])] := by
    simp [cachesOpen, hAny]
  constructor
  · simp [installHandler, hAll]
  · simp [installHandler, hAll, hOpen,
      getRegion_append_self CACHE_NAME cs h1]

/-- A fetch environment in which the manifest entry "/index.html" fails and
every other url succeeds. -/
def fetchFailIndex : String → Except Unit String :=
  fun u => if u = "/index.html" then .error () else .ok "ok"

/-- C9 witness: installing into an empty CacheStorage with "/index.html"
failing leaves the new region empty and the install step failed. -/
theorem install_atomic_witness :
    (installHandler fetchFailIndex []).1 = false ∧
    getRegion CACHE_NAME (installHandler fetchFailIndex []).2 = some [] :=
  install_atomic fetchFailIndex [] rfl
    ⟨"/index.html", by decide, by simp [fetchFailIndex]⟩

/-- Helper: membership after folding the per-name deletions of the activate
listener over a list of names. -/
theorem mem_activate_fold (r : String × CacheEntries) :
    ∀ (L : List String) (acc : CacheStorage),
      (r ∈ L.foldl (fun acc name =>
          if name != CACHE_NAME then cachesDelete name acc else acc) acc) ↔
        (r ∈ acc ∧ ∀ name ∈ L, name ≠ CACHE_NAME → r.1 ≠ name) := by
  intro L
  induction L with
  | nil => intro acc; simp
  | cons m L ih =>
    intro acc
    rw [List.foldl_cons, ih]
    by_cases hm : m = CACHE_NAME
    · subst hm
      simp [List.forall_mem_cons]
    · have hb : (m != CACHE_NAME) = true := bne_iff_ne.mpr hm
      simp only [hb, if_true, cachesDelete, List.mem_filter, bne_iff_ne,
        List.forall_mem_cons, ne_eq]
      constructor
      · rintro ⟨⟨hmem, hne⟩, hall⟩
        exact ⟨hmem, fun _ => fun hh => hne hh, hall⟩
      · rintro ⟨hmem, hhead, hall⟩
        exact ⟨⟨hmem, hhead hm⟩, hall⟩

/-- C10. The activate listener deletes exactly the cache regions whose name
differs from the current version string: a region survives iff it was
present and bears the current name; in particular of the regions named "v1"
and by the current version string, only "v1" is deleted. -/
theorem activate_deletes_stale :
    (∀ (cs : CacheStorage) (r : String × CacheEntries),
      r ∈ activateHandler cs ↔ r ∈ cs ∧ r.1 = CACHE_NAME) ∧
    activateHandler [("v1", []), (CACHE_NAME, [])] = [(CACHE_NAME, [])] := by
  constructor
  · intro cs r
    rw [activateHandler, mem_activate_fold]
    constructor
    · rintro ⟨hmem, hall⟩
      refine ⟨hmem, ?_⟩
      by_contra hne
      exact hall r.1 (List.mem_map_of_mem _ hmem) hne rfl
    · rintro ⟨hmem, heq⟩
      refine ⟨hmem, ?_⟩
      intro name _ hne hcontra
      exact hne (hcontra ▸ heq)
  · decide

/-! Concrete evaluations of the embedding, checked by the kernel. -/

example : app.loadNotes true (.error ()) (.notes [⟨1, "a"⟩]) =
    .ok ⟨.notes [⟨1, "a"⟩], [], false, true⟩ := rfl
example : app.loadNotes true (.ok []) (.notes [⟨1, "a"⟩]) =
    .ok ⟨.notes [], [⟨1, "a"⟩], true, false⟩ := rfl
example : app.loadNotes false (.ok [⟨2, "b"⟩]) (.notes [⟨1, "a"⟩]) =
    .ok ⟨.notes [⟨1, "a"⟩], [⟨1, "a"⟩], true, false⟩ := rfl
example : (app.handleDeleteNote true 1 (.notes [⟨1, "a"⟩, ⟨2, "b"⟩]) []).store =
    .notes [⟨2, "b"⟩] := by decide
example : (app.handleUpdateNote true (.ok true) ⟨2, "x"⟩
    (.notes [⟨1, "a"⟩, ⟨2, "b"⟩])).store = .notes [⟨1, "a"⟩, ⟨2, "x"⟩] := by decide
example : app.handleCreateNote false (.ok (some ⟨9, "z"⟩)) "z" (.notes [⟨1, "a"⟩]) =
    ⟨.notes [⟨1, "a"⟩], [], [], false, false⟩ := by decide
example : activateHandler [("v1", []), (CACHE_NAME, [])] = [(CACHE_NAME, [])] := by decide
example :
    installHandler (fun u => if u = "/index.html" then .error () else .ok "ok") [] =
      (false, [(CACHE_NAME, [])]) := by decide
example :
    installHandler (fun _ => .ok "ok") [] =
      (true, [(CACHE_NAME, urlsToCache.map (fun u => (u, "ok")))]) := by decide
